import Mathlib

set_option maxRecDepth 40000

/-!
Verification of `scripts/create-dmg-background.py`.

The script exposes a single function `create_background(output_path, width=600,
height=400)` which renders a fixed-schema SVG string, writes it to
`output_path.replace('.png', '.svg')`, invokes `qlmanage` to rasterize it, and
on success renames the generated thumbnail to `output_path` and deletes the
intermediate SVG; on any caught failure it renames the intermediate SVG to
`output_path.replace('.png', '.svg')` and returns `False`.

Shallow embedding choices:
* strings are Lean `String`s; Python's `str.replace` is modelled by
  `pyReplace` (all non-overlapping occurrences, scanned left to right);
* the filesystem is a total map `String → Option String` from paths to file
  contents; `os.rename` and `os.remove` fail (return `none`, modelling a
  raised `OSError`) exactly when the source file does not exist, and
  `os.rename` with equal source and destination is a successful no-op as on
  POSIX;
* the external `qlmanage` invocation is an oracle `Rasterizer` receiving the
  exact argument vector the script builds and the current filesystem, and
  returning the filesystem after the subprocess ran together with a flag that
  is `false` when `subprocess.run(..., check=True)` raises
  (missing utility or non-zero exit);
* exceptions that escape `create_background` are `Except.error`; the bare
  `except` around the subprocess block is modelled by routing every failing
  operation of that block to the fallback branch.
-/

/-- Number of positions of `l` (including the final empty suffix) at which
`pat` occurs as a prefix of the corresponding suffix; for a nonempty `pat`
this is the number of occurrences of `pat` in `l`, counting overlaps. -/
def countSub : List Char → List Char → Nat
  | [], pat => if pat.isPrefixOf ([] : List Char) then 1 else 0
  | c :: rest, pat => (if pat.isPrefixOf (c :: rest) then 1 else 0) + countSub rest pat

/-- Fuel-driven core of `pyReplace`: replaces non-overlapping occurrences of
`pat` by `rep`, scanning left to right, as Python's `str.replace` does.  The
fuel is an upper bound on the number of characters still to be consumed. -/
def replaceAllF (pat rep : List Char) : Nat → List Char → List Char
  | _, [] => []
  | 0, l => l
  | fuel + 1, c :: rest =>
    if pat.isPrefixOf (c :: rest) ∧ pat ≠ [] then
      rep ++ replaceAllF pat rep fuel (rest.drop (pat.length - 1))
    else
      c :: replaceAllF pat rep fuel rest

/-- Model of Python's `str.replace(pat, rep)` for a nonempty pattern. -/
def pyReplace (s pat rep : String) : String :=
  ⟨replaceAllF pat.data rep.data s.data.length s.data⟩

/-- The string `s` ends with `pat`. -/
def hasSuffix (s pat : String) : Prop :=
  ∃ a, s.data = a ++ pat.data

/-- No occurrence of `pat` starts at any position of `l`. -/
def NoOcc (l pat : List Char) : Prop :=
  ∀ i < l.length, pat.isPrefixOf (l.drop i) = false

instance (l pat : List Char) : Decidable (NoOcc l pat) := by
  unfold NoOcc; infer_instance

/-- The ten decimal digit characters. -/
def digitChars : List Char := "0123456789".data

theorem digitChar_mem_digitChars {n : Nat} (h : n < 10) :
    Nat.digitChar n ∈ digitChars := by
  interval_cases n <;> decide

theorem toDigitsCore_mem_digitChars (fuel n : Nat) (ds : List Char)
    (hds : ∀ c ∈ ds, c ∈ digitChars) :
    ∀ c ∈ Nat.toDigitsCore 10 fuel n ds, c ∈ digitChars := by
  induction fuel generalizing n ds with
  | zero => exact hds
  | succ fuel ih =>
    intro c hc
    unfold Nat.toDigitsCore at hc
    by_cases h0 : n / 10 = 0
    · simp only [h0, if_pos] at hc
      rcases List.mem_cons.mp hc with hc | hc
      · exact hc ▸ digitChar_mem_digitChars (Nat.mod_lt _ (by omega))
      · exact hds c hc
    · simp only [h0, if_neg, if_false] at hc
      refine ih (n / 10) (Nat.digitChar (n % 10) :: ds) ?_ c hc
      intro d hd
      rcases List.mem_cons.mp hd with hd | hd
      · exact hd ▸ digitChar_mem_digitChars (Nat.mod_lt _ (by omega))
      · exact hds d hd

theorem toDigitsCore_ne_nil (fuel n : Nat) (ds : List Char) :
    Nat.toDigitsCore 10 fuel n ds = [] → ds = [] ∧ fuel = 0 := by
  induction fuel generalizing n ds with
  | zero => exact fun h => ⟨h, rfl⟩
  | succ fuel ih =>
    intro h
    unfold Nat.toDigitsCore at h
    by_cases h0 : n / 10 = 0
    · simp [h0] at h
    · simp only [h0, if_neg, if_false] at h
      exact absurd (ih _ _ h).1 (by simp)

theorem repr_data_mem_digitChars (n : Nat) :
    ∀ c ∈ (toString n).data, c ∈ digitChars := by
  intro c hc
  exact toDigitsCore_mem_digitChars (n + 1) n [] (by simp) c hc

theorem repr_data_ne_nil (n : Nat) : (toString n).data ≠ [] := by
  intro h
  exact absurd ((toDigitsCore_ne_nil (n + 1) n [] h).2) (by simp)

theorem prefix_through_barrier (pat : List Char) (hpat : pat ≠ []) :
    ∀ (s m b : List Char), m ≠ [] → (∀ c ∈ m, c ∉ pat) →
      (pat <+: s ++ (m ++ b) ↔ pat <+: s) := by
  induction pat with
  | nil => exact absurd rfl hpat
  | cons p pat' ih =>
    intro s m b hm hdisj
    cases s with
    | nil =>
      simp only [List.nil_append]
      cases m with
      | nil => exact absurd rfl hm
      | cons mh mt =>
        constructor
        · intro h
          rcases (List.cons_prefix_cons).mp h with ⟨he, -⟩
          exact absurd (List.mem_cons_self mh mt)
            (fun hmem => hdisj mh hmem (he ▸ List.mem_cons_self p pat'))
        · intro h
          exact absurd h (by simp)
    | cons x s' =>
      simp only [List.cons_append, List.cons_prefix_cons]
      by_cases hp' : pat' = []
      · subst hp'; simp
      · have := ih hp' s' m b hm
          (fun c hc hmem => hdisj c hc (List.mem_cons_of_mem p hmem))
        rw [this]

theorem countSub_cons (c : Char) (rest pat : List Char) :
    countSub (c :: rest) pat
      = (if pat.isPrefixOf (c :: rest) then 1 else 0) + countSub rest pat := rfl

theorem countSub_nil (pat : List Char) (hpat : pat ≠ []) : countSub [] pat = 0 := by
  cases pat with
  | nil => exact absurd rfl hpat
  | cons p pat' => rfl

theorem countSub_barrier_left (pat : List Char) (hpat : pat ≠ []) :
    ∀ (m b : List Char), (∀ c ∈ m, c ∉ pat) →
      countSub (m ++ b) pat = countSub b pat := by
  intro m
  induction m with
  | nil => intro b _; rw [List.nil_append]
  | cons mh mt ih =>
    intro b hdisj
    have hnp : pat.isPrefixOf (mh :: (mt ++ b)) = false := by
      rw [Bool.eq_false_iff]
      intro h
      cases pat with
      | nil => exact hpat rfl
      | cons p pat' =>
        rcases List.cons_prefix_cons.mp (List.isPrefixOf_iff_prefix.mp h) with ⟨he, -⟩
        exact hdisj mh (List.mem_cons_self mh mt) (he ▸ List.mem_cons_self p pat')
    rw [List.cons_append, countSub_cons, hnp]
    simpa using ih b (fun c hc => hdisj c (List.mem_cons_of_mem mh hc))

theorem countSub_barrier (pat : List Char) (hpat : pat ≠ []) :
    ∀ (s m b : List Char), m ≠ [] → (∀ c ∈ m, c ∉ pat) →
      countSub (s ++ (m ++ b)) pat = countSub s pat + countSub b pat := by
  intro s
  induction s with
  | nil =>
    intro m b hm hdisj
    rw [List.nil_append, countSub_nil pat hpat, Nat.zero_add]
    exact countSub_barrier_left pat hpat m b hdisj
  | cons x s' ih =>
    intro m b hm hdisj
    rw [List.cons_append, countSub_cons, countSub_cons, ih m b hm hdisj]
    have heq : pat.isPrefixOf (x :: (s' ++ (m ++ b))) = pat.isPrefixOf (x :: s') := by
      rcases Bool.eq_false_or_eq_true (pat.isPrefixOf (x :: s')) with h | h
      · rw [h]
        have hpre := (prefix_through_barrier pat hpat (x :: s') m b hm hdisj).mpr
          (List.isPrefixOf_iff_prefix.mp h)
        apply List.isPrefixOf_iff_prefix.mpr
        simpa using hpre
      · rcases Bool.eq_false_or_eq_true (pat.isPrefixOf (x :: (s' ++ (m ++ b)))) with h2 | h2
        · exfalso
          have hpre := (prefix_through_barrier pat hpat (x :: s') m b hm hdisj).mp
            (by simpa using List.isPrefixOf_iff_prefix.mp h2)
          rw [Bool.eq_false_iff] at h
          exact h (List.isPrefixOf_iff_prefix.mpr hpre)
        · rw [h, h2]
    rw [heq]
    omega

/-- The pattern `".png"` as a list of characters. -/
def pngExt : List Char := ".png".data

/-- The replacement `".svg"` as a list of characters. -/
def svgExt : List Char := ".svg".data

theorem replaceAllF_nil (pat rep : List Char) (fuel : Nat) :
    replaceAllF pat rep fuel [] = [] := by
  cases fuel <;> rfl

theorem replaceAllF_pos (pat rep : List Char) (fuel : Nat) (c : Char) (rest : List Char)
    (h : pat.isPrefixOf (c :: rest) = true) (hne : pat ≠ []) :
    replaceAllF pat rep (fuel + 1) (c :: rest)
      = rep ++ replaceAllF pat rep fuel (rest.drop (pat.length - 1)) := by
  simp [replaceAllF, h, hne]

theorem replaceAllF_neg (pat rep : List Char) (fuel : Nat) (c : Char) (rest : List Char)
    (h : ¬(pat.isPrefixOf (c :: rest) = true ∧ pat ≠ [])) :
    replaceAllF pat rep (fuel + 1) (c :: rest) = c :: replaceAllF pat rep fuel rest := by
  simp only [replaceAllF, if_neg h]

theorem png_no_self_overlap (c : Char) (a' : List Char) (hlen : a'.length ≤ 2)
    (h : pngExt <+: c :: (a' ++ pngExt)) : False := by
  have hn : a'.length + 1 < pngExt.length := by
    have h4 : pngExt.length = 4 := rfl
    omega
  have h2 := h.getElem hn
  rw [List.getElem_cons_succ] at h2
  rw [List.getElem_append_right (Nat.le_refl _)] at h2
  have h2' : pngExt[a'.length - a'.length]? = pngExt[a'.length + 1]? := by
    rw [List.getElem?_eq_getElem, List.getElem?_eq_getElem, h2]
  have h0 : a'.length = 0 ∨ a'.length = 1 ∨ a'.length = 2 := by omega
  rcases h0 with h0 | h0 | h0 <;> rw [h0] at h2' <;> exact absurd h2' (by decide)

theorem replaceAllF_ends (fuel : Nat) :
    ∀ a : List Char, a.length + 4 ≤ fuel →
      ∃ b, replaceAllF pngExt svgExt fuel (a ++ pngExt) = b ++ svgExt := by
  induction fuel with
  | zero => intro a h; omega
  | succ fuel ih =>
    intro a hlen
    cases a with
    | nil =>
      refine ⟨[], ?_⟩
      rw [List.nil_append, List.nil_append,
        show pngExt = '.' :: "png".data from rfl,
        replaceAllF_pos _ _ _ _ _ (by decide) (by decide)]
      rw [show ("png".data).drop (('.' :: "png".data).length - 1) = [] from rfl,
        replaceAllF_nil, List.append_nil]
    | cons c a' =>
      rw [List.cons_append]
      by_cases hc : pngExt.isPrefixOf (c :: (a' ++ pngExt)) = true
      · have h3 : 3 ≤ a'.length := by
          by_contra hlt
          exact png_no_self_overlap c a' (by omega)
            (List.isPrefixOf_iff_prefix.mp hc)
        rw [replaceAllF_pos _ _ _ _ _ hc (by decide),
          show pngExt.length - 1 = 3 from rfl,
          List.drop_append_of_le_length h3]
        obtain ⟨b, hb⟩ := ih (a'.drop 3) (by simp at hlen ⊢; omega)
        refine ⟨svgExt ++ b, ?_⟩
        rw [hb, List.append_assoc]
      · rw [replaceAllF_neg _ _ _ _ _ (fun hand => hc hand.1)]
        obtain ⟨b, hb⟩ := ih a' (by simp at hlen ⊢; omega)
        refine ⟨c :: b, ?_⟩
        rw [hb, List.cons_append]

theorem replaceAllF_length (pat rep : List Char) (hlen : rep.length = pat.length) :
    ∀ fuel, ∀ l : List Char, l.length ≤ fuel →
      (replaceAllF pat rep fuel l).length = l.length := by
  intro fuel
  induction fuel with
  | zero =>
    intro l hl
    have : l = [] := List.length_eq_zero.mp (by omega)
    rw [this, replaceAllF_nil]
  | succ fuel ih =>
    intro l hl
    cases l with
    | nil => rw [replaceAllF_nil]
    | cons c rest =>
      by_cases hc : pat.isPrefixOf (c :: rest) = true ∧ pat ≠ []
      · rw [replaceAllF_pos _ _ _ _ _ hc.1 hc.2]
        have hple : pat.length ≤ rest.length + 1 := by
          have := (List.isPrefixOf_iff_prefix.mp hc.1).length_le
          simpa using this
        have hpn : 1 ≤ pat.length := by
          cases pat with
          | nil => exact absurd rfl hc.2
          | cons p ps => simp
        have hdrop : (rest.drop (pat.length - 1)).length = rest.length - (pat.length - 1) := by
          simp
        have hr := ih (rest.drop (pat.length - 1)) (by simp at hl ⊢; omega)
        simp only [List.length_append, hr, hdrop, List.length_cons] at *
        omega
      · rw [replaceAllF_neg _ _ _ _ _ hc]
        have hr := ih rest (by simp at hl ⊢; omega)
        simp only [List.length_cons, hr]

theorem replaceAllF_no_occ (fuel : Nat) :
    ∀ a : List Char, a.length + 4 ≤ fuel → NoOcc a pngExt →
      replaceAllF pngExt svgExt fuel (a ++ pngExt) = a ++ svgExt := by
  induction fuel with
  | zero => intro a h _; omega
  | succ fuel ih =>
    intro a hlen hno
    cases a with
    | nil =>
      rw [List.nil_append, List.nil_append,
        show pngExt = '.' :: "png".data from rfl,
        replaceAllF_pos _ _ _ _ _ (by decide) (by decide)]
      rw [show ("png".data).drop (('.' :: "png".data).length - 1) = [] from rfl,
        replaceAllF_nil, List.append_nil]
    | cons c a' =>
      rw [List.cons_append]
      by_cases hc : pngExt.isPrefixOf (c :: (a' ++ pngExt)) = true
      · exfalso
        have h3 : 3 ≤ a'.length := by
          by_contra hlt
          exact png_no_self_overlap c a' (by omega)
            (List.isPrefixOf_iff_prefix.mp hc)
        have hpre : pngExt <+: (c :: a') := by
          have hp := List.isPrefixOf_iff_prefix.mp hc
          rw [List.prefix_iff_eq_take] at hp
          rw [show pngExt.length = 4 from rfl] at hp
          rw [show List.take 4 (c :: (a' ++ pngExt)) = c :: List.take 3 (a' ++ pngExt)
              from rfl,
            List.take_append_of_le_length h3] at hp
          rw [List.prefix_iff_eq_take, show pngExt.length = 4 from rfl,
            show List.take 4 (c :: a') = c :: List.take 3 a' from rfl]
          exact hp
        have := hno 0 (by simp)
        rw [List.drop_zero] at this
        exact absurd (List.isPrefixOf_iff_prefix.mpr hpre) (by rw [this]; decide)
      · rw [replaceAllF_neg _ _ _ _ _ (fun hand => hc hand.1)]
        have hno' : NoOcc a' pngExt := by
          intro i hi
          have := hno (i + 1) (by simp; omega)
          rwa [List.drop_succ_cons] at this
        rw [ih a' (by simp at hlen ⊢; omega) hno', List.cons_append]

theorem pyReplace_hasSuffix (out : String) (h : hasSuffix out ".png") :
    hasSuffix (pyReplace out ".png" ".svg") ".svg" := by
  obtain ⟨a, ha⟩ := h
  have hfe : out.data.length = a.length + 4 := by
    rw [ha]; simp [pngExt]
  obtain ⟨b, hb⟩ := replaceAllF_ends out.data.length a (by omega)
  refine ⟨b, ?_⟩
  show (pyReplace out ".png" ".svg").data = b ++ ".svg".data
  rw [show (pyReplace out ".png" ".svg").data
      = replaceAllF ".png".data ".svg".data out.data.length out.data from rfl]
  rw [show (".png".data : List Char) = pngExt from rfl,
    show (".svg".data : List Char) = svgExt from rfl]
  rw [ha] at hb ⊢
  exact hb

theorem pyReplace_length (s : String) :
    (pyReplace s ".png" ".svg").data.length = s.data.length := by
  exact replaceAllF_length ".png".data ".svg".data rfl s.data.length s.data (Nat.le_refl _)

theorem pyReplace_stem (stem : String) (hno : NoOcc stem.data pngExt) :
    pyReplace (stem ++ ".png") ".png" ".svg" = stem ++ ".svg" := by
  apply String.ext
  show replaceAllF ".png".data ".svg".data (stem ++ ".png").data.length
      (stem ++ ".png").data = (stem ++ ".svg").data
  rw [String.data_append, String.data_append,
    show (".png".data : List Char) = pngExt from rfl,
    show (".svg".data : List Char) = svgExt from rfl]
  exact replaceAllF_no_occ (stem.data ++ pngExt).length stem.data
    (by simp [pngExt]) hno

theorem hasSuffix_png_not_svg (s : String)
    (h1 : hasSuffix s ".png") (h2 : hasSuffix s ".svg") : False := by
  obtain ⟨a, ha⟩ := h1
  obtain ⟨b, hb⟩ := h2
  have h := ha.symm.trans hb
  have := (List.append_inj' h (by rfl)).2
  exact absurd this (by decide)

theorem string_ne_append_png (s : String) : s ≠ s ++ ".png" := by
  intro h
  have hd := congrArg String.data h
  rw [String.data_append] at hd
  have := congrArg List.length hd
  simp at this

/-- The SVG template of `create_background`, split at the five formatting
holes. Piece before the root element: the XML declaration line. -/
def seg_xml : String := "<?xml version=\"1.0\" encoding=\"UTF-8\"?>\n"

/-- Opening of the root element up to the width attribute value. -/
def seg_svgOpen : String := "<svg width=\""

/-- Between the width and height attribute values (used by both the root
element and the background rect). -/
def seg_wh : String := "\" height=\""

/-- Start of the xmlns attribute, directly after the root height value. -/
def seg_xmlns : String := "\" xmlns"

/-- Rest of the root tag after `xmlns`. -/
def seg_xmlnsRest : String := "=\"http://www.w3.org/2000/svg\">\n"

/-- Gradient definitions block, up to the rect width attribute value. -/
def seg_gradient : String :=
  "  <!-- Background gradient -->\n  <defs>\n    <linearGradient id=\"bg\" x1=\"0%\" y1=\"0%\" x2=\"0%\" y2=\"100%\">\n      <stop offset=\"0%\" style=\"stop-color:#2d2d2d\"/>\n      <stop offset=\"100%\" style=\"stop-color:#1a1a1a\"/>\n    </linearGradient>\n  </defs>\n  <rect width=\""

/-- From the rect fill attribute through the arrow marker definitions, up to
the arrow line element. -/
def seg_marker : String :=
  "\" fill=\"url(#bg)\"/>\n  \n  <!-- Arrow pointing from app to Applications -->\n  <defs>\n    <marker id=\"arrowhead\" markerWidth=\"10\" markerHeight=\"7\" refX=\"9\" refY=\"3.5\" orient=\"auto\">\n      <polygon points=\"0 0, 10 3.5, 0 7\" fill=\"#888888\"/>\n    </marker>\n  </defs>\n  \n  <!-- Arrow line -->\n  "

/-- The fixed coordinates of the arrow line element. -/
def lineCoords : String := "x1=\"380\" y1=\"200\" x2=\"220\" y2=\"200\""

/-- The style attributes of the arrow line element, including the dash
pattern. -/
def lineStyle : String :=
  " \n        stroke=\"#888888\" stroke-width=\"3\" \n        marker-end=\"url(#arrowhead)\"\n        stroke-dasharray=\"10,5\"/>"

/-- The complete arrow line element; its coordinates are literal constants,
not functions of the requested width and height. -/
def lineElem : String := "<line " ++ lineCoords ++ lineStyle

/-- Between the arrow line and the text element. -/
def seg_preText : String := "\n  \n  <!-- Instruction text -->\n  "

/-- Opening of the text element up to the x attribute value. -/
def seg_textOpen : String := "<text x=\""

/-- The y attribute of the text element: the literal value 340, independent
of the requested height. -/
def seg_textY : String := "\" y=\"340\" "

/-- Rest of the text element and the closing root tag, including the literal
instruction string. -/
def seg_textRest : String :=
  "\n        font-family=\"SF Pro Display, Helvetica Neue, Arial\" \n        font-size=\"16\" \n        fill=\"#999999\" \n        text-anchor=\"middle\">\n    Drag Extremis to Applications to install\n  </text>\n</svg>"

/-- The SVG document string built by `create_background` (the `svg_content`
f-string of the script): the five holes are `width`, `height`, `width`,
`height`, `width // 2` in order. -/
def svg_content (width height : Nat) : String :=
  seg_xml ++ seg_svgOpen ++ toString width ++ seg_wh ++ toString height
    ++ seg_xmlns ++ seg_xmlnsRest ++ seg_gradient ++ toString width ++ seg_wh
    ++ toString height ++ seg_marker ++ lineElem ++ seg_preText
    ++ seg_textOpen ++ toString (width / 2) ++ seg_textY ++ seg_textRest

/-- The root tag of the generated SVG up to its xmlns attribute, carrying the
requested width and height. -/
def rootTag (width height : Nat) : String :=
  seg_svgOpen ++ toString width ++ seg_wh ++ toString height ++ seg_xmlns

/-- The instruction string of the text element. -/
def instrText : String := "Drag Extremis to Applications to install"

/-- The text element together with everything that follows it in the
document: a function of the requested width only. -/
def textTail (width : Nat) : String :=
  seg_textOpen ++ toString (width / 2) ++ seg_textY ++ seg_textRest

theorem svg_content_data (w h : Nat) :
    (svg_content w h).data =
      (seg_xml ++ seg_svgOpen).data
        ++ ((toString w).data
        ++ (seg_wh.data
        ++ ((toString h).data
        ++ ((seg_xmlns ++ seg_xmlnsRest ++ seg_gradient).data
        ++ ((toString w).data
        ++ (seg_wh.data
        ++ ((toString h).data
        ++ ((seg_marker ++ lineElem ++ seg_preText ++ seg_textOpen).data
        ++ ((toString (w / 2)).data
        ++ (seg_textY ++ seg_textRest).data))))))))) := by
  simp only [svg_content, String.data_append, List.append_assoc]

theorem countSub_svg_content (pat : List Char) (hne : pat ≠ [])
    (hd : ∀ c ∈ digitChars, c ∉ pat) (w h : Nat) :
    countSub (svg_content w h).data pat =
      countSub (seg_xml ++ seg_svgOpen).data pat
      + (countSub seg_wh.data pat
      + (countSub (seg_xmlns ++ seg_xmlnsRest ++ seg_gradient).data pat
      + (countSub seg_wh.data pat
      + (countSub (seg_marker ++ lineElem ++ seg_preText ++ seg_textOpen).data pat
      + countSub (seg_textY ++ seg_textRest).data pat)))) := by
  have hdig : ∀ n : Nat, ∀ c ∈ (toString n).data, c ∉ pat :=
    fun n c hc => hd c (repr_data_mem_digitChars n c hc)
  rw [svg_content_data]
  rw [countSub_barrier pat hne _ _ _ (repr_data_ne_nil w) (hdig w)]
  rw [countSub_barrier pat hne _ _ _ (repr_data_ne_nil h) (hdig h)]
  rw [countSub_barrier pat hne _ _ _ (repr_data_ne_nil w) (hdig w)]
  rw [countSub_barrier pat hne _ _ _ (repr_data_ne_nil h) (hdig h)]
  rw [countSub_barrier pat hne _ _ _ (repr_data_ne_nil (w / 2)) (hdig (w / 2))]

/-- The string `s` contains `pat` as a contiguous substring. -/
def containsStr (s pat : String) : Prop :=
  ∃ u v, s.data = u ++ (pat.data ++ v)

theorem svg_rootTag_contains (w h : Nat) :
    containsStr (svg_content w h) (rootTag w h) := by
  refine ⟨seg_xml.data,
    seg_xmlnsRest.data ++ (seg_gradient.data ++ ((toString w).data
      ++ (seg_wh.data ++ ((toString h).data ++ (seg_marker.data
      ++ (lineElem.data ++ (seg_preText.data ++ (seg_textOpen.data
      ++ ((toString (w / 2)).data ++ (seg_textY.data
      ++ seg_textRest.data)))))))))), ?_⟩
  simp only [svg_content, rootTag, String.data_append, List.append_assoc]

theorem svg_textTail_suffix (w h : Nat) : hasSuffix (svg_content w h) (textTail w) := by
  refine ⟨(seg_xml ++ seg_svgOpen).data ++ ((toString w).data
    ++ (seg_wh.data ++ ((toString h).data ++ ((seg_xmlns ++ seg_xmlnsRest
    ++ seg_gradient).data ++ ((toString w).data ++ (seg_wh.data
    ++ ((toString h).data ++ (seg_marker ++ lineElem ++ seg_preText).data))))))), ?_⟩
  simp only [svg_content, textTail, String.data_append, List.append_assoc]

theorem svg_lineElem_contains (w h : Nat) :
    containsStr (svg_content w h) ("<line " ++ lineCoords) := by
  refine ⟨(seg_xml ++ seg_svgOpen).data ++ ((toString w).data
    ++ (seg_wh.data ++ ((toString h).data ++ ((seg_xmlns ++ seg_xmlnsRest
    ++ seg_gradient).data ++ ((toString w).data ++ (seg_wh.data
    ++ ((toString h).data ++ seg_marker.data))))))),
    lineStyle.data ++ (seg_preText.data ++ (seg_textOpen.data
      ++ ((toString (w / 2)).data ++ (seg_textY.data ++ seg_textRest.data)))), ?_⟩
  simp only [svg_content, lineElem, String.data_append, List.append_assoc]

/-- C5: for every positive width and height, the generated SVG document
contains exactly one `<svg>` root element carrying the requested width and
height attributes, a linear-gradient definition, exactly one arrowhead marker
definition, exactly one dashed line element, and exactly one text element
containing the literal instruction string. -/
theorem c5_svg_structure (w h : Nat) (hw : 0 < w) (hh : 0 < h) :
    countSub (svg_content w h).data "<svg".data = 1 ∧
    containsStr (svg_content w h) (rootTag w h) ∧
    countSub (svg_content w h).data "<linearGradient".data = 1 ∧
    countSub (svg_content w h).data "<marker".data = 1 ∧
    countSub (svg_content w h).data "<line ".data = 1 ∧
    countSub (svg_content w h).data "stroke-dasharray".data = 1 ∧
    countSub (svg_content w h).data "<text".data = 1 ∧
    countSub (svg_content w h).data instrText.data = 1 := by
  refine ⟨?_, svg_rootTag_contains w h, ?_, ?_, ?_, ?_, ?_, ?_⟩ <;>
    rw [countSub_svg_content _ (by decide) (by decide) w h] <;> decide

/-- C5 witness at the default canvas size 600 by 400. -/
theorem c5_svg_structure_witness :
    0 < 600 ∧ 0 < 400 ∧
    (countSub (svg_content 600 400).data "<svg".data = 1 ∧
      containsStr (svg_content 600 400) (rootTag 600 400) ∧
      countSub (svg_content 600 400).data "<linearGradient".data = 1 ∧
      countSub (svg_content 600 400).data "<marker".data = 1 ∧
      countSub (svg_content 600 400).data "<line ".data = 1 ∧
      countSub (svg_content 600 400).data "stroke-dasharray".data = 1 ∧
      countSub (svg_content 600 400).data "<text".data = 1 ∧
      countSub (svg_content 600 400).data instrText.data = 1) :=
  ⟨by decide, by decide, c5_svg_structure 600 400 (by decide) (by decide)⟩

/-- C7: for every positive width and height, the arrow line element of the
generated SVG is unique and starts with the literal coordinates
`x1="380" y1="200" x2="220" y2="200"`, independent of the requested width and
height. -/
theorem c7_arrow_coords_fixed (w h : Nat) (hw : 0 < w) (hh : 0 < h) :
    containsStr (svg_content w h) ("<line " ++ lineCoords) ∧
    lineCoords = "x1=\"380\" y1=\"200\" x2=\"220\" y2=\"200\"" ∧
    countSub (svg_content w h).data "<line ".data = 1 := by
  refine ⟨svg_lineElem_contains w h, rfl, ?_⟩
  rw [countSub_svg_content _ (by decide) (by decide) w h]
  decide

/-- C7 witness at canvas size 601 by 399. -/
theorem c7_arrow_coords_fixed_witness :
    0 < 601 ∧ 0 < 399 ∧
    (containsStr (svg_content 601 399) ("<line " ++ lineCoords) ∧
      lineCoords = "x1=\"380\" y1=\"200\" x2=\"220\" y2=\"200\"" ∧
      countSub (svg_content 601 399).data "<line ".data = 1) :=
  ⟨by decide, by decide, c7_arrow_coords_fixed 601 399 (by decide) (by decide)⟩

/-- C6 counterexample: the text element and everything following it in the
generated SVG is byte-for-byte identical for heights 400 and 100 at width
600, and its y attribute is the constant segment `" y=\"340\" "`; so the text
placement does not use the requested height and the text is not vertically
centered on the requested canvas. -/
theorem c6_counterexample :
    hasSuffix (svg_content 600 400) (textTail 600) ∧
    hasSuffix (svg_content 600 100) (textTail 600) ∧
    (textTail 600).data
      = seg_textOpen.data ++ ((toString (600 / 2)).data
          ++ (seg_textY.data ++ seg_textRest.data)) ∧
    (400 : Nat) ≠ 100 :=
  ⟨svg_textTail_suffix 600 400, svg_textTail_suffix 600 100, by decide, by decide⟩

/-- C6 as amended: for every positive width and height, the placement of the
instruction text uses the requested width (its x attribute is `width / 2`,
the horizontal centre) but not the requested height: its y attribute is the
literal 340, and the entire text element is the same for all heights. -/
theorem c6_amended_text_placement (w h h' : Nat) (hw : 0 < w) (hh : 0 < h)
    (hh' : 0 < h') :
    hasSuffix (svg_content w h) (textTail w) ∧
    hasSuffix (svg_content w h') (textTail w) ∧
    (textTail w).data
      = seg_textOpen.data ++ ((toString (w / 2)).data
          ++ (seg_textY.data ++ seg_textRest.data)) := by
  refine ⟨svg_textTail_suffix w h, svg_textTail_suffix w h', ?_⟩
  simp only [textTail, String.data_append, List.append_assoc]

/-- C6 amended witness at width 600 and heights 400 and 800. -/
theorem c6_amended_text_placement_witness :
    0 < 600 ∧ 0 < 400 ∧ 0 < 800 ∧
    (hasSuffix (svg_content 600 400) (textTail 600) ∧
      hasSuffix (svg_content 600 800) (textTail 600) ∧
      (textTail 600).data
        = seg_textOpen.data ++ ((toString (600 / 2)).data
            ++ (seg_textY.data ++ seg_textRest.data))) :=
  ⟨by decide, by decide, by decide,
    c6_amended_text_placement 600 400 800 (by decide) (by decide) (by decide)⟩

/-- A filesystem: a total map from paths to optional file contents. -/
abbrev FS : Type := String → Option String

/-- The file at `p` after `open(p, 'w'); f.write(c)`. -/
def FS.write (fs : FS) (p c : String) : FS :=
  fun q => if q = p then some c else fs q

/-- Model of `os.path.exists`. -/
def FS.pathExists (fs : FS) (p : String) : Bool :=
  (fs p).isSome

/-- Model of `os.rename(src, dst)`: `none` models a raised `OSError` (the
source does not exist); renaming a path onto itself is a successful no-op. -/
def FS.renameFile (fs : FS) (src dst : String) : Option FS :=
  match fs src with
  | none => none
  | some c => some fun q => if q = dst then some c else if q = src then none else fs q

/-- Model of `os.remove(p)`: `none` models a raised `OSError`. -/
def FS.removeFile (fs : FS) (p : String) : Option FS :=
  match fs p with
  | none => none
  | some _ => some fun q => if q = p then none else fs q

/-- Oracle for the external `qlmanage` subprocess: given the argument vector
and the filesystem, it returns the filesystem after the subprocess ran and a
flag that is `false` when `subprocess.run(..., check=True)` raises (utility
missing, or non-zero exit status). -/
abbrev Rasterizer : Type := List String → FS → FS × Bool

/-- Model of Python's `posixpath.dirname`. -/
def dirname (p : String) : String :=
  let i := match (p.data.reverse.findIdx? (· = '/')) with
    | none => 0
    | some j => p.data.length - j
  let head := p.data.take i
  if head ≠ [] ∧ ¬ head.all (· = '/') then
    ⟨(head.reverse.dropWhile (· = '/')).reverse⟩
  else ⟨head⟩

/-- The intermediate SVG path computed at line 45 of the script:
`output_path.replace('.png', '.svg')`. -/
def svgPathOf (output_path : String) : String :=
  pyReplace output_path ".png" ".svg"

/-- The destination of the fallback rename at line 69 of the script:
`output_path.replace('.png', '.svg')`, recomputed. -/
def fallbackDst (output_path : String) : String :=
  pyReplace output_path ".png" ".svg"

/-- The argument vector passed to `subprocess.run`:
`['qlmanage', '-t', '-s', str(max(width, height)), '-o',
os.path.dirname(output_path) or '.', svg_path]`. -/
def qlArgs (output_path : String) (width height : Nat) : List String :=
  ["qlmanage", "-t", "-s", toString (max width height), "-o",
    if dirname output_path = "" then "." else dirname output_path,
    svgPathOf output_path]

/-- Outcome of the `try` block: the function returned `True`, control fell
through to the fallback, or an exception was caught by the bare `except`. -/
inductive TryOut : Type where
  | returned : TryOut
  | fell : TryOut
  | raised : TryOut

/-- The `try` block of `create_background`: run `qlmanage`, and if the file
`svg_path + '.png'` exists, rename it to `output_path`, delete the
intermediate SVG and return `True`.  Any exception is caught; the filesystem
state reached so far is kept. -/
def tryConvert (rast : Rasterizer) (output_path svg_path : String)
    (width height : Nat) (fs : FS) : TryOut × FS :=
  match rast (qlArgs output_path width height) fs with
  | (fs2, false) => (.raised, fs2)
  | (fs2, true) =>
    let generated := svg_path ++ ".png"
    if fs2.pathExists generated then
      match fs2.renameFile generated output_path with
      | none => (.raised, fs2)
      | some fs3 =>
        match fs3.removeFile svg_path with
        | none => (.raised, fs3)
        | some fs4 => (.returned, fs4)
    else (.fell, fs2)

/-- The embedding of `create_background(output_path, width=600, height=400)`.
It writes the SVG, runs the `try` block, and on fallthrough or a caught
exception renames the intermediate SVG to `output_path.replace('.png',
'.svg')` (line 69, outside the `try`) and returns `False`.  `Except.error`
models an exception escaping to the caller. -/
def create_background (rast : Rasterizer) (fs : FS) (output_path : String)
    (width : Nat := 600) (height : Nat := 400) : Except String (Bool × FS) :=
  let svg_path := svgPathOf output_path
  let fs1 := fs.write svg_path (svg_content width height)
  match tryConvert rast output_path svg_path width height fs1 with
  | (.returned, fs2) => .ok (true, fs2)
  | (.fell, fs2) =>
    match fs2.renameFile svg_path (fallbackDst output_path) with
    | none => .error "FileNotFoundError"
    | some fs3 => .ok (false, fs3)
  | (.raised, fs2) =>
    match fs2.renameFile svg_path (fallbackDst output_path) with
    | none => .error "FileNotFoundError"
    | some fs3 => .ok (false, fs3)

/-- The result of `create_background` was an uncaught exception. -/
def raisesError (r : Except String (Bool × FS)) : Bool :=
  match r with
  | .error _ => true
  | .ok _ => false

/-- The boolean returned by `create_background`, when it returned. -/
def cbBool (r : Except String (Bool × FS)) : Option Bool :=
  match r with
  | .ok (b, _) => some b
  | .error _ => none

/-- Whether path `p` exists in the filesystem `create_background` returned. -/
def cbExistsAt (r : Except String (Bool × FS)) (p : String) : Bool :=
  match r with
  | .ok (_, fs) => fs.pathExists p
  | .error _ => false

/-- The empty filesystem. -/
def fsEmpty : FS := fun _ => none

theorem svgPathOf_hasSuffix (out : String) (h : hasSuffix out ".png") :
    hasSuffix (svgPathOf out) ".svg" :=
  pyReplace_hasSuffix out h

theorem svgPathOf_ne_out (out : String) (h : hasSuffix out ".png") :
    svgPathOf out ≠ out :=
  fun he => hasSuffix_png_not_svg out h (he ▸ svgPathOf_hasSuffix out h)

theorem svgPathOf_ne_generated (out : String) :
    svgPathOf out ≠ svgPathOf out ++ ".png" :=
  string_ne_append_png _

theorem out_ne_generated (out : String) : out ≠ svgPathOf out ++ ".png" := by
  intro he
  have hl : out.data.length = (svgPathOf out).data.length + 4 := by
    conv_lhs => rw [he]
    rw [String.data_append, List.length_append,
      show (".png".data : List Char).length = 4 from rfl]
  have h2 : (svgPathOf out).data.length = out.data.length := pyReplace_length out
  omega

/-- C1: for every output path ending in `.png` and positive width and height,
if the rasterizer invocation succeeds, the generated file `svg_path + '.png'`
exists afterwards, and the invocation left the intermediate SVG in place,
then `create_background` returns `True`, a file exists at exactly the
requested output path, and the intermediate `.svg` file no longer exists. -/
theorem c1_success (rast : Rasterizer) (fs fs2 : FS) (out : String)
    (w h : Nat) (png : String)
    (hends : hasSuffix out ".png") (hw : 0 < w) (hh : 0 < h)
    (hrast : rast (qlArgs out w h) (FS.write fs (svgPathOf out) (svg_content w h))
      = (fs2, true))
    (hgen : fs2 (svgPathOf out ++ ".png") = some png)
    (hkeep : fs2 (svgPathOf out) = some (svg_content w h)) :
    ∃ fs', create_background rast fs out w h = .ok (true, fs') ∧
      fs'.pathExists out = true ∧
      fs'.pathExists (svgPathOf out) = false ∧
      hasSuffix (svgPathOf out) ".svg" := by
  have hso : svgPathOf out ≠ out := svgPathOf_ne_out out hends
  have hos : out ≠ svgPathOf out := Ne.symm hso
  have hsg : svgPathOf out ≠ svgPathOf out ++ ".png" := svgPathOf_ne_generated out
  have hEq : create_background rast fs out w h
      = .ok (true, fun q =>
          if q = svgPathOf out then none
          else if q = out then some png
          else if q = svgPathOf out ++ ".png" then none else fs2 q) := by
    simp only [create_background, tryConvert, hrast, FS.pathExists, hgen,
      Option.isSome_some, if_true, FS.renameFile, FS.removeFile, hso, hsg,
      if_neg, if_false, hkeep]
  refine ⟨_, hEq, ?_, ?_, svgPathOf_hasSuffix out hends⟩
  · simp [FS.pathExists, hos]
  · simp [FS.pathExists]

/-- C1 witness: a rasterizer that creates `out.svg.png` and exits zero, on an
empty filesystem, with `out.png` at the default canvas size. -/
theorem c1_success_witness :
    hasSuffix "out.png" ".png" ∧ 0 < 600 ∧ 0 < 400 ∧
    (∃ fs', create_background (fun _ g => (g.write "out.svg.png" "P", true))
        fsEmpty "out.png" 600 400 = .ok (true, fs') ∧
      fs'.pathExists "out.png" = true ∧
      fs'.pathExists (svgPathOf "out.png") = false ∧
      hasSuffix (svgPathOf "out.png") ".svg") :=
  ⟨⟨"out".data, rfl⟩, by decide, by decide,
    c1_success (fun _ g => (g.write "out.svg.png" "P", true)) fsEmpty _ "out.png"
      600 400 "P" ⟨"out".data, rfl⟩ (by decide) (by decide) rfl (by rfl) (by rfl)⟩

theorem fallbackDst_eq_svgPathOf (out : String) : fallbackDst out = svgPathOf out := rfl

/-- C2: for every output path ending in `.png`, if the rasterizer invocation
raises (utility unavailable or non-zero exit) or succeeds without producing
the expected `svg_path + '.png'` file, and it left the intermediate SVG in
place, then `create_background` returns `False` and a file ending in `.svg`
exists at the path derived from the output path by replacing `.png` with
`.svg`, holding the generated SVG document. -/
theorem c2_fallback (rast : Rasterizer) (fs fs2 : FS) (out : String) (w h : Nat)
    (hends : hasSuffix out ".png")
    (hrast : rast (qlArgs out w h) (FS.write fs (svgPathOf out) (svg_content w h))
        = (fs2, false)
      ∨ (rast (qlArgs out w h) (FS.write fs (svgPathOf out) (svg_content w h))
          = (fs2, true)
        ∧ fs2.pathExists (svgPathOf out ++ ".png") = false))
    (hkeep : fs2 (svgPathOf out) = some (svg_content w h)) :
    ∃ fs', create_background rast fs out w h = .ok (false, fs') ∧
      fs' (svgPathOf out) = some (svg_content w h) ∧
      hasSuffix (svgPathOf out) ".svg" := by
  rcases hrast with hr | ⟨hr, hng⟩
  · have hEq : create_background rast fs out w h
        = .ok (false, fun q =>
            if q = svgPathOf out then some (svg_content w h)
            else if q = svgPathOf out then none else fs2 q) := by
      simp only [create_background, tryConvert, hr, FS.renameFile,
        fallbackDst_eq_svgPathOf, hkeep]
    exact ⟨_, hEq, by simp, svgPathOf_hasSuffix out hends⟩
  · have hEq : create_background rast fs out w h
        = .ok (false, fun q =>
            if q = svgPathOf out then some (svg_content w h)
            else if q = svgPathOf out then none else fs2 q) := by
      simp only [create_background, tryConvert, hr, hng, Bool.false_eq_true,
        if_false, FS.renameFile, fallbackDst_eq_svgPathOf, hkeep]
    exact ⟨_, hEq, by simp, svgPathOf_hasSuffix out hends⟩

/-- C2 witness: a rasterizer whose invocation raises (utility unavailable),
on the empty filesystem with `out.png`. -/
theorem c2_fallback_witness :
    hasSuffix "out.png" ".png" ∧
    (∃ fs', create_background (fun _ g => (g, false)) fsEmpty "out.png" 600 400
        = .ok (false, fs') ∧
      fs' (svgPathOf "out.png") = some (svg_content 600 400) ∧
      hasSuffix (svgPathOf "out.png") ".svg") :=
  ⟨⟨"out".data, rfl⟩,
    c2_fallback (fun _ g => (g, false)) fsEmpty _ "out.png" 600 400
      ⟨"out".data, rfl⟩ (Or.inl rfl) (by rfl)⟩

/-- C3 counterexample: if the rasterizer invocation removes the intermediate
SVG file (for example a concurrent cleanup of `out.svg`) and fails, the
fallback rename at line 69 — which sits outside the `try` block — raises
`FileNotFoundError`, and the exception escapes `create_background` to its
caller.  So not every subprocess or filesystem error is swallowed. -/
theorem c3_counterexample :
    raisesError (create_background
      (fun _ g => (fun p => if p = "out.svg" then none else g p, false))
      fsEmpty "out.png" 600 400) = true := rfl

/-- C3 as amended: errors of the rasterizer invocation itself are swallowed
and only the boolean return communicates failure, provided the invocation
leaves the intermediate SVG file on disk; under that assumption
`create_background` never raises, for every output path and size. -/
theorem c3_amended_no_raise (rast : Rasterizer) (fs fs2 : FS) (out : String)
    (w h : Nat) (ok : Bool)
    (hrast : rast (qlArgs out w h) (FS.write fs (svgPathOf out) (svg_content w h))
      = (fs2, ok))
    (hkeep : (fs2 (svgPathOf out)).isSome = true) :
    ∃ b fs', create_background rast fs out w h = .ok (b, fs') := by
  obtain ⟨c, hc⟩ : ∃ c, fs2 (svgPathOf out) = some c := by
    cases hfs : fs2 (svgPathOf out) with
    | none => rw [hfs] at hkeep; simp at hkeep
    | some c => exact ⟨c, rfl⟩
  cases ok with
  | false =>
    simp only [create_background, tryConvert, hrast, FS.renameFile,
      fallbackDst_eq_svgPathOf, hc]
    exact ⟨_, _, rfl⟩
  | true =>
    rcases Bool.eq_false_or_eq_true (fs2.pathExists (svgPathOf out ++ ".png"))
      with hg | hg
    · obtain ⟨p, hp⟩ : ∃ p, fs2 (svgPathOf out ++ ".png") = some p := by
        unfold FS.pathExists at hg
        cases hfs : fs2 (svgPathOf out ++ ".png") with
        | none => rw [hfs] at hg; simp at hg
        | some p => exact ⟨p, rfl⟩
      have hsg : svgPathOf out ≠ svgPathOf out ++ ".png" :=
        svgPathOf_ne_generated out
      by_cases ho : svgPathOf out = out
      · simp only [create_background, tryConvert, fallbackDst_eq_svgPathOf, ho]
        rw [ho] at hrast hg hp
        simp only [hrast, hg, if_true, FS.renameFile, FS.removeFile, hp,
          eq_self_iff_true]
        exact ⟨_, _, rfl⟩
      · simp only [create_background, tryConvert, hrast, hg, if_true,
          FS.renameFile, FS.removeFile, hp, ho, hsg, if_neg, if_false, hc]
        exact ⟨_, _, rfl⟩
    · simp only [create_background, tryConvert, hrast, hg, Bool.false_eq_true,
        if_false, FS.renameFile, fallbackDst_eq_svgPathOf, hc]
      exact ⟨_, _, rfl⟩

/-- C3 amended witness: an unavailable rasterizer on the empty filesystem. -/
theorem c3_amended_no_raise_witness :
    (∃ b fs', create_background (fun _ g => (g, false)) fsEmpty "out.png" 600 400
      = .ok (b, fs')) :=
  c3_amended_no_raise (fun _ g => (g, false)) fsEmpty _ "out.png" 600 400 false
    rfl (by rfl)

/-- C4 counterexample: starting from a filesystem that already holds a stale
`out.png` (for example from an earlier successful run), a failed rasterization
leaves BOTH `out.png` and `out.svg` on disk at exit, so it is not true that
exactly one image artifact exists at (or derived from) the requested output
path after every call. -/
theorem c4_counterexample :
    cbBool (create_background (fun _ g => (g, false))
      (fun p => if p = "out.png" then some "OLD" else none) "out.png" 600 400)
      = some false ∧
    cbExistsAt (create_background (fun _ g => (g, false))
      (fun p => if p = "out.png" then some "OLD" else none) "out.png" 600 400)
      "out.png" = true ∧
    cbExistsAt (create_background (fun _ g => (g, false))
      (fun p => if p = "out.png" then some "OLD" else none) "out.png" 600 400)
      "out.svg" = true :=
  ⟨rfl, rfl, rfl⟩

/-- C4 as amended: for an output path ending in `.png` at which no file
initially exists, and a rasterizer invocation whose only filesystem effect is
possibly creating the expected `svg_path + '.png'` file, exactly one of the
output path and the derived `.svg` path exists at exit; the intermediate SVG
is absent only on the success path, after the generated PNG was renamed to
the output path. -/
theorem c4_amended (rast : Rasterizer) (fs fs2 : FS) (out : String)
    (w h : Nat) (ok : Bool)
    (hends : hasSuffix out ".png")
    (hclean : fs out = none)
    (hrast : rast (qlArgs out w h) (FS.write fs (svgPathOf out) (svg_content w h))
      = (fs2, ok))
    (hframe : ∀ p, p ≠ svgPathOf out ++ ".png" →
      fs2 p = FS.write fs (svgPathOf out) (svg_content w h) p) :
    ∃ b fs', create_background rast fs out w h = .ok (b, fs') ∧
      fs'.pathExists out ≠ fs'.pathExists (svgPathOf out) ∧
      (fs'.pathExists (svgPathOf out) = false →
        b = true ∧ fs'.pathExists out = true) := by
  have hso : svgPathOf out ≠ out := svgPathOf_ne_out out hends
  have hos : out ≠ svgPathOf out := Ne.symm hso
  have hsg : svgPathOf out ≠ svgPathOf out ++ ".png" := svgPathOf_ne_generated out
  have hog : out ≠ svgPathOf out ++ ".png" := out_ne_generated out
  have hkeep : fs2 (svgPathOf out) = some (svg_content w h) := by
    rw [hframe _ hsg]
    simp [FS.write]
  have hout2 : fs2 out = none := by
    rw [hframe _ hog]
    simp [FS.write, hos, hclean]
  cases ok with
  | false =>
    have hEq : create_background rast fs out w h
        = .ok (false, fun q =>
            if q = svgPathOf out then some (svg_content w h)
            else if q = svgPathOf out then none else fs2 q) := by
      simp only [create_background, tryConvert, hrast, FS.renameFile,
        fallbackDst_eq_svgPathOf, hkeep]
    refine ⟨false, _, hEq, ?_, ?_⟩
    · simp [FS.pathExists, hos, hout2]
    · intro hfalse
      simp [FS.pathExists] at hfalse
  | true =>
    rcases Bool.eq_false_or_eq_true (fs2.pathExists (svgPathOf out ++ ".png"))
      with hg | hg
    · obtain ⟨p, hp⟩ : ∃ p, fs2 (svgPathOf out ++ ".png") = some p := by
        unfold FS.pathExists at hg
        cases hfs : fs2 (svgPathOf out ++ ".png") with
        | none => rw [hfs] at hg; simp at hg
        | some p => exact ⟨p, rfl⟩
      have hEq : create_background rast fs out w h
          = .ok (true, fun q =>
              if q = svgPathOf out then none
              else if q = out then some p
              else if q = svgPathOf out ++ ".png" then none else fs2 q) := by
        simp only [create_background, tryConvert, hrast, FS.pathExists, hp,
          Option.isSome_some, if_true, FS.renameFile, FS.removeFile, hso, hsg,
          if_neg, if_false, hkeep]
      refine ⟨true, _, hEq, ?_, ?_⟩
      · simp [FS.pathExists, hos]
      · intro _
        exact ⟨rfl, by simp [FS.pathExists, hos]⟩
    · have hEq : create_background rast fs out w h
          = .ok (false, fun q =>
              if q = svgPathOf out then some (svg_content w h)
              else if q = svgPathOf out then none else fs2 q) := by
        simp only [create_background, tryConvert, hrast, hg, Bool.false_eq_true,
          if_false, FS.renameFile, fallbackDst_eq_svgPathOf, hkeep]
      refine ⟨false, _, hEq, ?_, ?_⟩
      · simp [FS.pathExists, hos, hout2]
      · intro hfalse
        simp [FS.pathExists] at hfalse

/-- C4 amended witness: an unavailable rasterizer, empty filesystem. -/
theorem c4_amended_witness :
    hasSuffix "out.png" ".png" ∧ fsEmpty "out.png" = none ∧
    (∃ b fs', create_background (fun _ g => (g, false)) fsEmpty "out.png" 600 400
        = .ok (b, fs') ∧
      fs'.pathExists "out.png" ≠ fs'.pathExists (svgPathOf "out.png") ∧
      (fs'.pathExists (svgPathOf "out.png") = false →
        b = true ∧ fs'.pathExists "out.png" = true)) :=
  ⟨⟨"out".data, rfl⟩, rfl,
    c4_amended (fun _ g => (g, false)) fsEmpty _ "out.png" 600 400 false
      ⟨"out".data, rfl⟩ rfl rfl (fun _ _ => rfl)⟩

theorem fallback_run (rast : Rasterizer) (fs fs2 : FS) (out : String) (w h : Nat)
    (hrast : rast (qlArgs out w h) (FS.write fs (svgPathOf out) (svg_content w h))
      = (fs2, false))
    (hkeep : fs2 (svgPathOf out) = some (svg_content w h)) :
    create_background rast fs out w h
      = .ok (false, fun q =>
          if q = svgPathOf out then some (svg_content w h)
          else if q = svgPathOf out then none else fs2 q) := by
  simp only [create_background, tryConvert, hrast, FS.renameFile,
    fallbackDst_eq_svgPathOf, hkeep]

/-- C8 counterexample: for `output_path = "a.png/b.png"`, the intermediate SVG
path is `"a.svg/b.svg"` — `str.replace` replaces every occurrence of `.png`,
so the directory component changes and the SVG is not written to a sibling
path of the output path. -/
theorem c8_counterexample :
    svgPathOf "a.png/b.png" = "a.svg/b.svg" ∧
    dirname (svgPathOf "a.png/b.png") ≠ dirname "a.png/b.png" :=
  ⟨rfl, by decide⟩

/-- C8 as amended: `create_background` writes the intermediate SVG to
`output_path.replace('.png', '.svg')`, which replaces every occurrence of
`.png` in the path; when the only occurrence of `.png` in the output path is
its final extension, this is the sibling path `stem + '.svg'` (same directory
and base name, extension changed), as witnessed on the fallback path by the
SVG document sitting at that path. -/
theorem c8_amended (rast : Rasterizer) (fs : FS) (stem : String) (w h : Nat)
    (hno : NoOcc stem.data pngExt)
    (hrast : ∀ g : FS, rast (qlArgs (stem ++ ".png") w h) g = (g, false)) :
    svgPathOf (stem ++ ".png") = stem ++ ".svg" ∧
    ∃ fs', create_background rast fs (stem ++ ".png") w h = .ok (false, fs') ∧
      fs' (stem ++ ".svg") = some (svg_content w h) := by
  have hstem : svgPathOf (stem ++ ".png") = stem ++ ".svg" := pyReplace_stem stem hno
  refine ⟨hstem, ?_⟩
  have hkeep : (FS.write fs (svgPathOf (stem ++ ".png")) (svg_content w h))
      (svgPathOf (stem ++ ".png")) = some (svg_content w h) := by
    simp [FS.write]
  have hEq := fallback_run rast fs _ (stem ++ ".png") w h (hrast _) hkeep
  refine ⟨_, hEq, ?_⟩
  rw [← hstem]
  simp

/-- C8 amended witness: stem `dir/out`, unavailable rasterizer. -/
theorem c8_amended_witness :
    NoOcc "dir/out".data pngExt ∧
    (svgPathOf ("dir/out" ++ ".png") = "dir/out" ++ ".svg" ∧
      ∃ fs', create_background (fun _ g => (g, false)) fsEmpty
          ("dir/out" ++ ".png") 600 400 = .ok (false, fs') ∧
        fs' ("dir/out" ++ ".svg") = some (svg_content 600 400)) :=
  ⟨by decide,
    c8_amended (fun _ g => (g, false)) fsEmpty "dir/out" 600 400 (by decide)
      (fun _ => rfl)⟩

/-- C10: the fallback rename of line 69 has a destination equal to its
source, so it never moves the intermediate SVG: when the rasterizer
invocation raises, the function returns `False` with the filesystem exactly
as the invocation left it, and the rename succeeds precisely when the
intermediate SVG still exists — otherwise the rename raises and the
exception escapes. -/
theorem c10_fallback_rename (rast : Rasterizer) (fs fs2 : FS) (out : String)
    (w h : Nat)
    (hrast : rast (qlArgs out w h) (FS.write fs (svgPathOf out) (svg_content w h))
      = (fs2, false)) :
    svgPathOf out = fallbackDst out ∧
    ((fs2 (svgPathOf out)).isSome = true →
      ∃ fs', create_background rast fs out w h = .ok (false, fs') ∧
        ∀ q, fs' q = fs2 q) ∧
    (fs2 (svgPathOf out) = none →
      create_background rast fs out w h = .error "FileNotFoundError") := by
  refine ⟨rfl, ?_, ?_⟩
  · intro hks
    obtain ⟨c, hc⟩ : ∃ c, fs2 (svgPathOf out) = some c := by
      cases hfs : fs2 (svgPathOf out) with
      | none => rw [hfs] at hks; simp at hks
      | some c => exact ⟨c, rfl⟩
    have hEq : create_background rast fs out w h
        = .ok (false, fun q =>
            if q = svgPathOf out then some c
            else if q = svgPathOf out then none else fs2 q) := by
      simp only [create_background, tryConvert, hrast, FS.renameFile,
        fallbackDst_eq_svgPathOf, hc]
    refine ⟨_, hEq, ?_⟩
    intro q
    by_cases hq : q = svgPathOf out
    · simp [hq, hc]
    · simp [hq]
  · intro hn
    simp only [create_background, tryConvert, hrast, FS.renameFile,
      fallbackDst_eq_svgPathOf, hn]

/-- C10 witness: unavailable rasterizer on the empty filesystem. -/
theorem c10_fallback_rename_witness :
    svgPathOf "out.png" = fallbackDst "out.png" ∧
    ((((FS.write fsEmpty (svgPathOf "out.png") (svg_content 600 400))
        (svgPathOf "out.png")).isSome = true →
      ∃ fs', create_background (fun _ g => (g, false)) fsEmpty "out.png" 600 400
          = .ok (false, fs') ∧
        ∀ q, fs' q = (FS.write fsEmpty (svgPathOf "out.png")
          (svg_content 600 400)) q) ∧
    ((FS.write fsEmpty (svgPathOf "out.png") (svg_content 600 400))
        (svgPathOf "out.png") = none →
      create_background (fun _ g => (g, false)) fsEmpty "out.png" 600 400
        = .error "FileNotFoundError")) :=
  ⟨rfl,
    (c10_fallback_rename (fun _ g => (g, false)) fsEmpty _ "out.png" 600 400
      rfl).2⟩

/-- C9: for an output path ending in `.png` and a rasterizer that behaves the
same way on both runs — either it always produces the expected
`svg_path + '.png'` file with fixed contents and exits zero, or its
invocation always raises — running `create_background` twice in sequence
returns the same boolean both times and leaves the filesystem of the second
run extensionally equal to that of the first: prior artifacts are overwritten
and no orphaned intermediate files remain. -/
theorem c9_idempotent (rast : Rasterizer) (fs0 : FS) (out : String)
    (w h : Nat) (P : String)
    (hends : hasSuffix out ".png")
    (hrast : (∀ g : FS, rast (qlArgs out w h) g
        = (g.write (svgPathOf out ++ ".png") P, true))
      ∨ (∀ g : FS, rast (qlArgs out w h) g = (g, false))) :
    ∃ b fs1 fs2, create_background rast fs0 out w h = .ok (b, fs1) ∧
      create_background rast fs1 out w h = .ok (b, fs2) ∧
      ∀ q, fs2 q = fs1 q := by
  have hso : svgPathOf out ≠ out := svgPathOf_ne_out out hends
  have hos : out ≠ svgPathOf out := Ne.symm hso
  have hsg : svgPathOf out ≠ svgPathOf out ++ ".png" := svgPathOf_ne_generated out
  have hgs : svgPathOf out ++ ".png" ≠ svgPathOf out := Ne.symm hsg
  have hog : out ≠ svgPathOf out ++ ".png" := out_ne_generated out
  have hgo : svgPathOf out ++ ".png" ≠ out := Ne.symm hog
  rcases hrast with hr | hr
  · have hgen : ∀ g : FS,
        (FS.write (FS.write g (svgPathOf out) (svg_content w h))
          (svgPathOf out ++ ".png") P) (svgPathOf out ++ ".png") = some P :=
      fun g => by simp [FS.write]
    have hkeep : ∀ g : FS,
        (FS.write (FS.write g (svgPathOf out) (svg_content w h))
          (svgPathOf out ++ ".png") P) (svgPathOf out)
          = some (svg_content w h) :=
      fun g => by simp [FS.write, hsg]
    have hrun : ∀ g : FS, create_background rast g out w h
        = .ok (true, fun q =>
            if q = svgPathOf out then none
            else if q = out then some P
            else if q = svgPathOf out ++ ".png" then none
            else FS.write (FS.write g (svgPathOf out) (svg_content w h))
              (svgPathOf out ++ ".png") P q) := by
      intro g
      simp only [create_background, tryConvert,
        hr (FS.write g (svgPathOf out) (svg_content w h)), FS.pathExists,
        hgen g, Option.isSome_some, if_true, FS.renameFile, FS.removeFile,
        hso, hsg, if_neg, if_false, hkeep g]
    refine ⟨true, _, _, hrun fs0, hrun _, ?_⟩
    intro q
    by_cases h1 : q = svgPathOf out
    · simp [h1]
    · by_cases h2 : q = out
      · simp [h1, h2, hos]
      · by_cases h3 : q = svgPathOf out ++ ".png"
        · simp [h1, h2, h3, hgs, hgo]
        · simp [FS.write, h1, h2, h3]
  · have hkeep : ∀ g : FS,
        (FS.write g (svgPathOf out) (svg_content w h)) (svgPathOf out)
          = some (svg_content w h) :=
      fun g => by simp [FS.write]
    have hrun : ∀ g : FS, create_background rast g out w h
        = .ok (false, fun q =>
            if q = svgPathOf out then some (svg_content w h)
            else if q = svgPathOf out then none
            else FS.write g (svgPathOf out) (svg_content w h) q) := by
      intro g
      simp only [create_background, tryConvert,
        hr (FS.write g (svgPathOf out) (svg_content w h)), FS.renameFile,
        fallbackDst_eq_svgPathOf, hkeep g]
    refine ⟨false, _, _, hrun fs0, hrun _, ?_⟩
    intro q
    by_cases h1 : q = svgPathOf out
    · simp [h1]
    · simp [FS.write, h1]

/-- C9 witness: unavailable rasterizer on the empty filesystem. -/
theorem c9_idempotent_witness :
    hasSuffix "out.png" ".png" ∧
    (∃ b fs1 fs2, create_background (fun _ g => (g, false)) fsEmpty
        "out.png" 600 400 = .ok (b, fs1) ∧
      create_background (fun _ g => (g, false)) fs1 "out.png" 600 400
        = .ok (b, fs2) ∧
      ∀ q, fs2 q = fs1 q) :=
  ⟨⟨"out".data, rfl⟩,
    c9_idempotent (fun _ g => (g, false)) fsEmpty "out.png" 600 400 ""
      ⟨"out".data, rfl⟩ (Or.inr (fun _ => rfl))⟩
